import Mathlib

/-!
Shallow embedding of the HummingBird v2 forecasting core
(`forecasting.py`, `data_fetchers.py`) and proofs about the claims of the
specification.

Modelling conventions:
* pandas float cells are modelled by `PVal K`: a finite value `num x`,
  `nan`, or `inf` (+infinity; the sign of an infinity never matters for
  the properties below).  `dropna` removes only `nan`; infinities are
  ordinary values to pandas.
* timestamps are modelled as `Int` (already-parsed epoch days); unparseable
  dates are outside the model.
* `Prophet` (an external library) is modelled as an oracle
  `fitModel : history -> periods -> Except String (List (RawRow K))`;
  a raised fit exception is an `Except.error`.
* `np.log`/`np.exp` are passed as explicit function arguments `lg`/`ex`
  so that the pipeline itself stays a computable function; all theorems
  instantiate them with `Real.log`/`Real.exp`.
* `pd.DataFrame.sort_values` is modelled by a stable insertion sort on the
  `ds` key (the pandas default quicksort fixes no tie order; no theorem below
  depends on the order of rows with equal timestamps beyond the concrete
  choice made by the embedding).
-/

namespace HummingBird

/-- Python `str.lower()` (kernel-reducible, unlike `String.toLower`). -/
def pyLower (s : String) : String := String.mk (s.data.map Char.toLower)

/-- A pandas float cell: finite value, NaN, or infinity. -/
inductive PVal (K : Type) where
  | num (x : K)
  | nan
  | inf
deriving DecidableEq

/-- Returns `true` exactly on the NaN cell (the only thing `dropna` removes). -/
def PVal.isNan {K : Type} : PVal K → Bool
  | .nan => true
  | _ => false

/-- numpy elementwise application of a real function: NaN propagates,
`log`/`exp` send +infinity to +infinity. -/
def pvalMap {K : Type} (g : K → K) : PVal K → PVal K
  | .num x => .num (g x)
  | .nan => .nan
  | .inf => .inf

/-- Extract a finite value, with a default for the non-finite cells.
All theorems about the stock branch assume a finite last observation. -/
def pvalNum {K : Type} (v : PVal K) (d : K) : K :=
  match v with
  | .num x => x
  | _ => d

/-- One column of the input DataFrame: a name, the pandas "numeric dtype"
flag (used by `select_dtypes(include=[np.number])`), and the cells. -/
structure Column (K : Type) where
  name : String
  numeric : Bool
  values : List (PVal K)

/-- The tabular input of `prepare_data_for_prophet`:
row index (dates when `datetimeIndex` is true, positions otherwise), an
optional date-like column (a column whose lowercased name is one of
`date`/`timestamp`/`time`, with parsed dates), and the value columns. -/
structure Frame (K : Type) where
  index : List Int
  datetimeIndex : Bool
  dateCol : Option (List Int)
  cols : List (Column K)

/-- pandas `DataFrame.empty`: some axis has length zero. -/
def Frame.isEmptyFrame {K : Type} (f : Frame K) : Bool :=
  f.index.isEmpty || f.cols.isEmpty

/-- Lookup of the Close column, `df["Close"]` (forecasting.py line 32). -/
def findClose {K : Type} (cols : List (Column K)) : Option (Column K) :=
  cols.find? (fun c => c.name = "Close")

/-- First numeric column, `df.select_dtypes(include=[np.number]).columns[0]`
(forecasting.py lines 43-44). -/
def findNumeric {K : Type} (cols : List (Column K)) : Option (Column K) :=
  cols.find? (fun c => c.numeric)

/-- Sort key of `df.sort_values("ds")`: the timestamp component. -/
def dsLE {K : Type} (a b : Int × PVal K) : Prop := a.1 ≤ b.1

instance {K : Type} : DecidableRel (dsLE (K := K)) :=
  fun a b => inferInstanceAs (Decidable (a.1 ≤ b.1))

instance {K : Type} : IsTotal (Int × PVal K) (dsLE (K := K)) :=
  ⟨fun a b => Int.le_total a.1 b.1⟩

instance {K : Type} : IsTrans (Int × PVal K) (dsLE (K := K)) :=
  ⟨fun _ _ _ h h2 => le_trans h h2⟩

/-- The function `prepare_data_for_prophet` (forecasting.py lines 16-68).

* lines 27-29: a datetime index is materialised as the `ds` column;
* lines 32-40: if a `Close` column exists it becomes `y`, and `ds` falls
  back to a date-named column, else to the index;
* lines 41-47: otherwise the first numeric column becomes `y` and `ds` is
  the index;
* line 56: select `(ds, y)` and sort ascending by `ds`;
* line 58: `dropna` — NaN rows are removed, infinities are kept;
* lines 66-68: when no `y` (and hence possibly no `ds`) column could be
  built, the resulting `KeyError` is caught and re-raised as a generic
  `Exception("Failed to prepare data for Prophet: ...")`.

Dates are assumed already parseable and `y` cells already float-like;
failures of `pd.to_datetime`/`astype(float)` are outside the model.

`prepareY` is the value (`y`) column selection: `Close` when present,
else the first numeric column, else nothing (which makes the overall
preparation raise). -/
def prepareY {K : Type} (f : Frame K) : Option (List (PVal K)) :=
  match findClose f.cols with
  | some c => some c.values
  | none => (findNumeric f.cols).map Column.values

/-- Timestamp (`ds`) column selection of `prepare_data_for_prophet`
(see the doc comment of that definition). -/
def prepareDs {K : Type} (f : Frame K) : Option (List Int) :=
  if f.datetimeIndex then some f.index
  else
    match findClose f.cols with
    | some _ =>
      match f.dateCol with
      | some ds => some ds
      | none => some f.index
    | none => if (findNumeric f.cols).isSome then some f.index else none

/-- The overall preparation (see the long doc comment above `prepareY`):
select `(ds, y)`, sort ascending by `ds`, drop NaN rows; raise when no
value column could be built. -/
def prepare_data_for_prophet {K : Type} (f : Frame K) :
    Except String (List (Int × PVal K)) :=
  match prepareDs f, prepareY f with
  | some ds, some ys =>
    .ok (((ds.zip ys).insertionSort dsLE).filter (fun r => !r.2.isNan))
  | _, _ => .error "Failed to prepare data for Prophet"

/-- One row of the raw Prophet forecast (`model.predict(future)`):
timestamp, `yhat`, `yhat_lower`, `yhat_upper`. -/
structure RawRow (K : Type) where
  ds : Int
  yhat : K
  yhatLower : K
  yhatUpper : K

/-- One row of the returned forecast: the raw columns plus the `actual`
column added at forecasting.py lines 204-210 (`none` models the NaN
initialisation of line 205). -/
structure ForecastRow (K : Type) where
  ds : Int
  yhat : K
  yhatLower : K
  yhatUpper : K
  actual : Option (PVal K)

/-- Embedding of the assignment
`forecast.loc[forecast["ds"].isin(prophet_df["ds"]), "actual"] = actual_values`
(forecasting.py line 210): positional assignment of `vals` to the rows
whose timestamp occurs in `histDs`; pandas raises a `ValueError` when the
number of selected rows differs from `len(vals)`. -/
def assignActuals {K : Type} :
    List (RawRow K) → List Int → List (PVal K) →
    Except String (List (ForecastRow K))
  | [], _, [] => .ok []
  | [], _, _ :: _ =>
    .error "Must have equal len keys and value when setting with an iterable"
  | r :: rs, histDs, vs =>
    if r.ds ∈ histDs then
      match vs with
      | v :: tl =>
        (assignActuals rs histDs tl).map
          (fun fc => ⟨r.ds, r.yhat, r.yhatLower, r.yhatUpper, some v⟩ :: fc)
      | [] =>
        .error "Must have equal len keys and value when setting with an iterable"
    else
      (assignActuals rs histDs vs).map
        (fun fc => ⟨r.ds, r.yhat, r.yhatLower, r.yhatUpper, none⟩ :: fc)

/-- The value `prophet_df["y"].iloc[-1]` (forecasting.py line 190); the default is
irrelevant because the caller guarantees a nonempty history. -/
def lastY {K : Type} (rows : List (Int × PVal K)) : PVal K :=
  (rows.map Prod.snd).getLastD .nan

/-- Stock-only post-processing of the raw forecast
(forecasting.py lines 184-202):
exponentiate `yhat`, `yhat_lower`, `yhat_upper`; let
`current_price = exp(prophet_df["y"].iloc[-1])` (the history is in log
scale at this point); clip `yhat` into
`[current_price * 0.5, current_price * 2]`, clip `yhat_upper` from above at
`current_price * 2 * 1.2` and `yhat_lower` from below at
`current_price * 0.5 * 0.8`. -/
def stockPostProcess {K : Type} [LinearOrderedField K] (ex : K → K)
    (df : List (Int × PVal K)) (raw : List (RawRow K)) : List (RawRow K) :=
  let expd := raw.map (fun r =>
    RawRow.mk r.ds (ex r.yhat) (ex r.yhatLower) (ex r.yhatUpper))
  let currentPrice := ex (pvalNum (lastY df) 0)
  let maxForecast := currentPrice * 2
  let minForecast := currentPrice * (1 / 2)
  expd.map (fun r =>
    { ds := r.ds
      yhat := max (min r.yhat maxForecast) minForecast
      yhatLower := max r.yhatLower (minForecast * (8 / 10))
      yhatUpper := min r.yhatUpper (maxForecast * (12 / 10)) })

/-- The function `prophet_forecast` (forecasting.py lines 129-216).

* lines 133-134: empty input short-circuits with a message;
* line 137: data preparation (a raised exception becomes the caught
  `(None, str(e))` of lines 214-216);
* lines 139-140: empty prepared data short-circuits with a message;
* lines 145-147: for stocks the target is fit in log space;
* lines 149-181: model construction, fitting, and prediction are the
  external Prophet library, modelled by the `fitModel` oracle; a fit or
  predict exception again becomes `(None, str(e))`;
* lines 184-202: stock-only exponentiation and clamping
  (`stockPostProcess`);
* lines 204-210: the `actual` column (`assignActuals`); for stocks the
  stored actuals are `exp` of the log-scale history (line 207);
* the `economic_data` and `indicator` parameters are accepted but never
  read anywhere in the body.

The dead assignments of lines 143-144 (`max_price`, `scale_factor = 1.0`)
are omitted: neither is used afterwards. -/
def prophet_forecast {K : Type} [LinearOrderedField K]
    (data : Frame K) (periods : Nat)
    (economic_data : Option (List (Int × PVal K)))
    (indicator : Option String)
    (asset_type : String)
    (lg ex : K → K)
    (fitModel : List (Int × PVal K) → Nat → Except String (List (RawRow K))) :
    Option (List (ForecastRow K)) × Option String :=
  if data.isEmptyFrame then (none, some "No data provided for forecasting")
  else
    match prepare_data_for_prophet data with
    | .error e => (none, some e)
    | .ok rows =>
      if rows.isEmpty then
        (none, some "No valid data for forecasting after preparation")
      else
        let prophetDf :=
          if pyLower asset_type = "stocks" then
            rows.map (fun p => (p.1, pvalMap lg p.2))
          else rows
        match fitModel prophetDf periods with
        | .error e => (none, some e)
        | .ok raw =>
          let post :=
            if pyLower asset_type = "stocks" then
              stockPostProcess ex prophetDf raw
            else raw
          let actualValues :=
            if pyLower asset_type = "stocks" then
              prophetDf.map (fun p => pvalMap ex p.2)
            else prophetDf.map Prod.snd
          match assignActuals post (prophetDf.map Prod.fst) actualValues with
          | .error e => (none, some e)
          | .ok fc => (some fc, none)

/-- Per-row confidence width,
`(forecast["yhat_upper"] - forecast["yhat_lower"]) / forecast["yhat"] * 100`
(forecasting.py lines 342 and 559). -/
def confidenceWidthRow {K : Type} [LinearOrderedField K] (r : ForecastRow K) : K :=
  (r.yhatUpper - r.yhatLower) / r.yhat * 100

/-- Mean of a list of floats, `Series.mean()` (the empty case never occurs in the
displays, which fail earlier on `iloc`). -/
def listMean {K : Type} [LinearOrderedField K] (l : List K) : K :=
  l.sum / (l.length : K)

/-- First point estimate, `forecast.iloc[0]` (default irrelevant for nonempty input). -/
def firstYhat {K : Type} [LinearOrderedField K] (forecast : List (ForecastRow K)) : K :=
  (forecast.map ForecastRow.yhat).headD 0

/-- Last point estimate, `forecast.iloc[-1]`. -/
def lastYhat {K : Type} [LinearOrderedField K] (forecast : List (ForecastRow K)) : K :=
  (forecast.map ForecastRow.yhat).getLastD 0

/-- Average confidence of the FIRST `display_confidence_analysis`
definition (forecasting.py lines 332-349): widths clipped at 100 for
stocks, then `100 - min(width.mean(), 90)`. -/
def display_confidence_analysis_v1_avg {K : Type} [LinearOrderedField K]
    (forecast : List (ForecastRow K)) (asset_type : String) : K :=
  let cw := forecast.map confidenceWidthRow
  let cw2 :=
    if pyLower asset_type = "stocks" then cw.map (fun w => min w 100) else cw
  100 - min (listMean cw2) 90

/-- Total trend of the first `display_confidence_analysis` definition
(forecasting.py lines 352-359): capped at 100 for stocks. -/
def display_confidence_analysis_v1_totalTrend {K : Type} [LinearOrderedField K]
    (forecast : List (ForecastRow K)) (asset_type : String) : K :=
  if pyLower asset_type = "stocks" then
    min ((lastYhat forecast / firstYhat forecast - 1) * 100) 100
  else (lastYhat forecast / firstYhat forecast - 1) * 100

/-- Trend label of the first `display_confidence_analysis` definition
(forecasting.py lines 362-366). -/
def trendDescriptionOf {K : Type} [LinearOrderedField K] (totalTrend : K) : String :=
  if |totalTrend| < 10 then "Neutral"
  else if 0 < totalTrend then "Strong Bullish" else "Strong Bearish"

/-- Average confidence of the SECOND `display_confidence_analysis`
definition (forecasting.py lines 553-560): plain `100 - width.mean()`,
no clipping of any kind. -/
def display_confidence_analysis_v2_avg {K : Type} [LinearOrderedField K]
    (forecast : List (ForecastRow K)) : K :=
  100 - listMean (forecast.map confidenceWidthRow)

/-- Total trend of the second `display_confidence_analysis` definition
(forecasting.py line 561): uncapped. -/
def display_confidence_analysis_v2_totalTrend {K : Type} [LinearOrderedField K]
    (forecast : List (ForecastRow K)) : K :=
  (lastYhat forecast / firstYhat forecast - 1) * 100

/-- The module-level function definitions of forecasting.py, as tags. -/
inductive PyFun where
  | prepareDataForProphet
  | addCryptoSpecificIndicators
  | addTechnicalIndicators
  | prophetForecastFn
  | displayCommonMetrics
  | displayConfidenceAnalysisV1
  | displayMetricsV1
  | displayStockMetrics
  | displayCryptoMetricsV1
  | displayConfidenceAnalysisV2
  | displayCryptoMetricsV2
  | displayMetricsV2
  | displayEconomicIndicators
deriving DecidableEq

/-- The `def` statements of forecasting.py in source order (line numbers:
16, 70, 94, 129, 218, 332, 437, 457, 509, 553, 574, 603, 615). Python
executes these in order, so a later `def` rebinds the module attribute. -/
def forecastingModuleDefs : List (String × PyFun) :=
  [ ("prepare_data_for_prophet", .prepareDataForProphet)
  , ("add_crypto_specific_indicators", .addCryptoSpecificIndicators)
  , ("add_technical_indicators", .addTechnicalIndicators)
  , ("prophet_forecast", .prophetForecastFn)
  , ("display_common_metrics", .displayCommonMetrics)
  , ("display_confidence_analysis", .displayConfidenceAnalysisV1)
  , ("display_metrics", .displayMetricsV1)
  , ("display_stock_metrics", .displayStockMetrics)
  , ("display_crypto_metrics", .displayCryptoMetricsV1)
  , ("display_confidence_analysis", .displayConfidenceAnalysisV2)
  , ("display_crypto_metrics", .displayCryptoMetricsV2)
  , ("display_metrics", .displayMetricsV2)
  , ("display_economic_indicators", .displayEconomicIndicators) ]

/-- Python module-attribute binding: executing `def name: ...` statements
top to bottom leaves the LAST definition of each name bound. -/
def pythonBinding (m : List (String × PyFun)) (name : String) : Option PyFun :=
  (m.filter (fun p => p.1 = name)).getLast?.map Prod.snd

/-- pandas `Series.ffill()`: each NaN cell takes the closest preceding
non-NaN value; leading NaN cells (no preceding value) stay NaN.
`prev` is the value carried so far (`.nan` initially). -/
def ffillFrom {K : Type} (prev : PVal K) : List (PVal K) → List (PVal K)
  | [] => []
  | .nan :: l => prev :: ffillFrom prev l
  | v :: l => v :: ffillFrom v l

/-- Value-column processing of `EconomicIndicators.get_indicator_data`
(data_fetchers.py lines 78-80): for a non-daily series the values are
forward-filled — and nothing else; there is no backward fill.  The FRED
fetch itself is external I/O and outside the model. -/
def get_indicator_data_values {K : Type} (frequency : String)
    (vals : List (PVal K)) : List (PVal K) :=
  if frequency ≠ "Daily" then ffillFrom .nan vals else vals

/-! Concrete inputs used by counterexamples and witnesses. -/

/-- A one-row stock history with closing price 1. -/
def stockFrame1 (K : Type) [LinearOrderedField K] : Frame K :=
  { index := [0], datetimeIndex := true, dateCol := none
    cols := [⟨"Close", true, [.num 1]⟩] }

/-- A model oracle whose forecast rows all carry the single value `v` on
day 0. With `v = log (1/4)` this is a stock model predicting a quarter of
the current price, far below the stock clamp floor. -/
def fitConst {K : Type} (v : K) :
    List (Int × PVal K) → Nat → Except String (List (RawRow K)) :=
  fun _ _ => .ok [⟨0, v, v, v⟩]

/-- A two-row crypto history doubling from 1 to 2. -/
def cryptoFrame2 (K : Type) [LinearOrderedField K] : Frame K :=
  { index := [0, 1], datetimeIndex := true, dateCol := none
    cols := [⟨"Close", true, [.num 1, .num 2]⟩] }

/-- A (linear-space) oracle forecasting the doubling series on to 8,
four times the last observed price. -/
def fitDoubling {K : Type} [LinearOrderedField K] :
    List (Int × PVal K) → Nat → Except String (List (RawRow K)) :=
  fun _ _ => .ok [⟨0, 1, 1, 1⟩, ⟨1, 2, 2, 2⟩, ⟨2, 8, 8, 8⟩]

/-- A two-row crypto history for the round-trip witness. -/
def cryptoFrame3 (K : Type) [LinearOrderedField K] : Frame K :=
  { index := [0, 1], datetimeIndex := true, dateCol := none
    cols := [⟨"Close", true, [.num 2, .num 3]⟩] }

/-- An oracle covering the history plus one future day. -/
def fitFlat {K : Type} [LinearOrderedField K] :
    List (Int × PVal K) → Nat → Except String (List (RawRow K)) :=
  fun _ _ => .ok [⟨0, 5, 4, 6⟩, ⟨1, 5, 4, 6⟩, ⟨2, 5, 4, 6⟩]

/-- A frame with two rows sharing the same timestamp (e.g. two quotes for
the same day): `prepare_data_for_prophet` keeps both. -/
def dupFrame : Frame ℚ :=
  { index := [1, 1], datetimeIndex := true, dateCol := none
    cols := [⟨"Close", true, [.num 2, .num 3]⟩] }

/-- A frame with an infinite closing price: `dropna` keeps it. -/
def infFrame : Frame ℚ :=
  { index := [0, 1], datetimeIndex := true, dateCol := none
    cols := [⟨"Close", true, [.num 1, .inf]⟩] }

/-- A frame whose only value is NaN: cleaning leaves zero rows, and the
function returns the empty series instead of raising. -/
def allNanFrame : Frame ℚ :=
  { index := [0], datetimeIndex := true, dateCol := none
    cols := [⟨"Close", true, [.nan]⟩] }

/-- An unsorted frame with a NaN row, for the C5 witness. -/
def unsortedFrame : Frame ℚ :=
  { index := [3, 1, 2], datetimeIndex := true, dateCol := none
    cols := [⟨"Close", true, [.num 30, .nan, .num 20]⟩] }

/-- Whether a computation modelling a Python call raised. -/
def isErrorE {ε α : Type} : Except ε α → Bool
  | .error _ => true
  | .ok _ => false

/-- A forecast row with a degenerate (zero-width) interval: confidence
width 0, so the reported average confidence is 100%. -/
def zeroWidthRow : ForecastRow ℚ := ⟨0, 100, 100, 100, none⟩

/-- A forecast row with an extremely wide interval (width 300%). -/
def wideRow : ForecastRow ℚ := ⟨0, 1, 0, 3, none⟩

/-- Forecast rows whose point estimate quintuples: total trend +400%. -/
def trendRows : List (ForecastRow ℚ) := [⟨0, 1, 1, 1, none⟩, ⟨1, 5, 5, 5, none⟩]

/-- The forecast row produced by running `stockFrame1` through the stock
pipeline with the constant-0 model oracle (spelled with the very
`lg`/`ex` terms so that the pipeline output is definitionally this row). -/
def clampedRow (K : Type) [LinearOrderedField K] (lg ex : K → K) : ForecastRow K :=
  ⟨0, max (min (ex 0) (ex (lg 1) * 2)) (ex (lg 1) * (1 / 2)),
    max (ex 0) (ex (lg 1) * (1 / 2) * (8 / 10)),
    min (ex 0) (ex (lg 1) * 2 * (12 / 10)),
    some (PVal.num (ex (lg 1)))⟩

/-! ## Theorems -/

/-- C5. The claim states that the output of the series normaliser is
sorted ascending, deduplicated (keeping the last observation per
timestamp) and free of missing or non-finite values.  The code
(forecasting.py lines 49-64) sorts and drops NaN but never deduplicates
(`drop_duplicates` is not called) and `dropna` keeps infinities: on a
frame with two rows for timestamp 1 both rows survive, and an infinite
closing price survives cleaning. -/
theorem C5_counterexample :
    prepare_data_for_prophet dupFrame = .ok [(1, .num 2), (1, .num 3)] ∧
    ¬ List.Nodup (List.map Prod.fst [(1, PVal.num (2 : ℚ)), (1, PVal.num 3)]) ∧
    prepare_data_for_prophet infFrame = .ok [(0, .num 1), (1, .inf)] ∧
    PVal.inf ∈ List.map Prod.snd [(0, PVal.num (1 : ℚ)), (1, PVal.inf)] :=
  ⟨rfl, by decide, rfl, by decide⟩

/-- C5 (amended). For every input accepted by
`prepare_data_for_prophet`, the output is sorted ascending by timestamp
and contains no missing (NaN) values; duplicate timestamps are preserved
(no deduplication takes place) and infinite values are retained. -/
theorem C5_sorted_nanfree_amended {K : Type} (f : Frame K)
    (rows : List (Int × PVal K))
    (h : prepare_data_for_prophet f = .ok rows) :
    List.Pairwise dsLE rows ∧ rows.all (fun p => !p.2.isNan) = true := by
  unfold prepare_data_for_prophet at h
  cases hds : prepareDs f with
  | none => rw [hds] at h; cases hy : prepareY f <;> rw [hy] at h <;> cases h
  | some ds =>
    rw [hds] at h
    cases hy : prepareY f with
    | none => rw [hy] at h; cases h
    | some ys =>
      rw [hy] at h
      cases h
      refine ⟨(List.sorted_insertionSort dsLE _).filter _, ?_⟩
      simp only [List.all_eq_true]
      intro p hp
      exact (List.mem_filter.mp hp).2

/-- C5 witness: the amended statement on a concrete unsorted frame with a
missing value. -/
theorem C5_witness :
    List.Pairwise dsLE [(2, PVal.num (20 : ℚ)), (3, PVal.num 30)] ∧
    List.all [(2, PVal.num (20 : ℚ)), (3, PVal.num 30)] (fun p => !p.2.isNan) = true :=
  C5_sorted_nanfree_amended unsortedFrame _ rfl

/-- C6. The claim states that the normaliser raises exactly when, after
cleaning, zero rows remain or no numeric column can be identified.  In
the code an input that cleans to zero rows does NOT raise: the function
returns an empty frame, which the caller (`prophet_forecast` line 139)
turns into an error message.  Concretely, a frame whose only `Close`
value is NaN cleans to zero rows yet `prepare_data_for_prophet` returns
normally. -/
theorem C6_counterexample :
    prepare_data_for_prophet allNanFrame = .ok [] ∧
    isErrorE (prepare_data_for_prophet allNanFrame) = false :=
  ⟨rfl, rfl⟩

/-- The value-column selection fails exactly when there is neither a
`Close` column nor a numeric column. -/
theorem prepareY_eq_none_iff {K : Type} (f : Frame K) :
    prepareY f = none ↔ findClose f.cols = none ∧ findNumeric f.cols = none := by
  unfold prepareY
  cases hc : findClose f.cols <;> cases hn : findNumeric f.cols <;> simp [hc, hn]

/-- When even the `ds` selection fails, no value column existed either. -/
theorem prepareDs_eq_none_imp {K : Type} (f : Frame K)
    (h : prepareDs f = none) :
    findClose f.cols = none ∧ findNumeric f.cols = none := by
  unfold prepareDs at h
  cases hd : f.datetimeIndex <;> rw [hd] at h
  · cases hc : findClose f.cols <;> rw [hc] at h
    · cases hn : findNumeric f.cols <;> rw [hn] at h
      · exact ⟨rfl, rfl⟩
      · simp at h
    · cases hdc : f.dateCol <;> rw [hdc] at h <;> simp at h
  · simp at h

/-- C6 (amended). The normaliser raises exactly when no value column can
be identified — no `Close` column and no numeric column (the resulting
`KeyError` is re-raised as a generic preparation exception, forecasting.py
lines 66-68; no `DataPreparationError` class exists).  An input that
cleans to zero rows returns the empty canonical series without raising. -/
theorem C6_error_iff_no_numeric_amended {K : Type} (f : Frame K) :
    isErrorE (prepare_data_for_prophet f) = true ↔
      (findClose f.cols = none ∧ findNumeric f.cols = none) := by
  constructor
  · intro h
    unfold prepare_data_for_prophet at h
    cases hds : prepareDs f with
    | none => exact prepareDs_eq_none_imp f hds
    | some ds =>
      rw [hds] at h
      cases hy : prepareY f with
      | none => exact (prepareY_eq_none_iff f).mp hy
      | some ys =>
        rw [hy] at h
        simp [isErrorE] at h
  · intro hcn
    have hy : prepareY f = none := (prepareY_eq_none_iff f).mpr hcn
    unfold prepare_data_for_prophet
    cases hds : prepareDs f <;> rw [hy] <;> rfl

/-- C3. The claim states that a supplied economic-indicator or sentiment
regressor is added to the model with multiplicative effect mode, so that
calls differing only in those arguments produce different forecasts.  In
the code the `economic_data` and `indicator` parameters of
`prophet_forecast` are never read anywhere in the body (forecasting.py
lines 129-216 contain no `add_regressor` call and no other use), so the
result is definitionally independent of them: any two calls differing
only in those two arguments return identical results. -/
theorem C3_regressor_ignored (K : Type) [LinearOrderedField K]
    (data : Frame K) (periods : Nat)
    (e1 e2 : Option (List (Int × PVal K))) (i1 i2 : Option String)
    (asset_type : String) (lg ex : K → K)
    (fitModel : List (Int × PVal K) → Nat → Except String (List (RawRow K))) :
    prophet_forecast data periods e1 i1 asset_type lg ex fitModel =
      prophet_forecast data periods e2 i2 asset_type lg ex fitModel := rfl

/-- C4. The claim states the reported average confidence never exceeds
90%.  On a forecast row with a zero-width interval the mean confidence
width is 0 and BOTH definitions of `display_confidence_analysis` report
100%: the `min(width.mean(), 90)` of the first definition only bounds the
width from above (flooring the result at 10), it does not cap the result
at 90. -/
theorem C4_counterexample :
    display_confidence_analysis_v2_avg [zeroWidthRow] = 100 ∧
    display_confidence_analysis_v1_avg [zeroWidthRow] "stocks" = 100 ∧
    ¬ ((100 : ℚ) ≤ 90) := by
  refine ⟨?_, ?_, by norm_num⟩
  · norm_num [display_confidence_analysis_v2_avg, listMean, confidenceWidthRow, zeroWidthRow]
  · have h : pyLower "stocks" = "stocks" := rfl
    simp only [display_confidence_analysis_v1_avg, listMean, confidenceWidthRow, zeroWidthRow,
      List.map_cons, List.map_nil, h, if_pos, List.sum_cons, List.sum_nil, List.length_cons,
      List.length_nil]
    norm_num [min_def]

/-- C4 (amended). The average confidence actually reported (the second,
effective definition of `display_confidence_analysis`) equals
`100 - mean(width)` with no cap whatsoever; the shadowed first definition
computes `100 - min(mean(clipped width), 90)`, which guarantees a FLOOR
of 10% (at least 10% reported uncertainty) but is likewise not bounded
above by 90%. -/
theorem C4_confidence_formula_amended :
    (∀ (K : Type) [LinearOrderedField K] (forecast : List (ForecastRow K)),
      display_confidence_analysis_v2_avg forecast
        = 100 - listMean (forecast.map confidenceWidthRow)) ∧
    (∀ (K : Type) [LinearOrderedField K] (forecast : List (ForecastRow K))
      (asset_type : String),
      10 ≤ display_confidence_analysis_v1_avg forecast asset_type) := by
  constructor
  · intro K _ forecast
    rfl
  · intro K _ forecast asset_type
    unfold display_confidence_analysis_v1_avg
    dsimp only
    have h := min_le_right
      (listMean (if pyLower asset_type = "stocks"
        then (forecast.map confidenceWidthRow).map (fun w => min w 100)
        else forecast.map confidenceWidthRow)) (90 : K)
    linarith

/-- C9. The claim states that economic-indicator gap filling applies
forward-fill THEN backward-fill, so the series is fully populated even
when the gap is at the start.  The code (data_fetchers.py lines 78-80)
only ever calls `ffill()`: a NaN before the first observation survives. -/
theorem C9_counterexample :
    get_indicator_data_values "Monthly" [PVal.nan, PVal.num (1 : ℚ)]
      = [PVal.nan, PVal.num 1] ∧
    PVal.nan ∈ get_indicator_data_values "Monthly" [PVal.nan, PVal.num (1 : ℚ)] :=
  ⟨rfl, by rw [(rfl : get_indicator_data_values "Monthly" [PVal.nan, PVal.num (1 : ℚ)]
      = [PVal.nan, PVal.num 1])]; exact List.mem_cons_self _ _⟩

/-- Forward filling from a non-NaN carried value never produces NaN. -/
theorem ffillFrom_no_nan {K : Type} (prev : PVal K) (l : List (PVal K))
    (hprev : prev.isNan = false) :
    ∀ w ∈ ffillFrom prev l, w.isNan = false := by
  induction l generalizing prev with
  | nil => intro w hw; cases hw
  | cons v l ih =>
    cases v with
    | nan =>
      intro w hw
      rcases List.mem_cons.mp hw with h | h
      · rw [h]; exact hprev
      · exact ih prev hprev w h
    | num x =>
      intro w hw
      rcases List.mem_cons.mp hw with h | h
      · rw [h]; rfl
      · exact ih (PVal.num x) rfl w h
    | inf =>
      intro w hw
      rcases List.mem_cons.mp hw with h | h
      · rw [h]; rfl
      · exact ih PVal.inf rfl w h

/-- C9 (amended). The economic-indicator processing applies forward-fill
only (no backward fill): a non-daily series whose FIRST observation is
present comes out fully populated, but leading gaps are not repaired. -/
theorem C9_ffill_amended {K : Type} (frequency : String) (v : PVal K)
    (l : List (PVal K)) (hfreq : frequency ≠ "Daily") (hv : v.isNan = false) :
    (get_indicator_data_values frequency (v :: l)).all (fun w => !w.isNan) = true := by
  unfold get_indicator_data_values
  rw [if_pos hfreq]
  simp only [List.all_eq_true, Bool.not_eq_true']
  cases v with
  | nan => cases hv
  | num x =>
    intro w hw
    have hw2 : w = PVal.num x ∨ w ∈ ffillFrom (PVal.num x) l := by
      simpa [ffillFrom] using hw
    rcases hw2 with h | h
    · rw [h]; rfl
    · exact ffillFrom_no_nan (PVal.num x) l rfl w h
  | inf =>
    intro w hw
    have hw2 : w = PVal.inf ∨ w ∈ ffillFrom PVal.inf l := by
      simpa [ffillFrom] using hw
    rcases hw2 with h | h
    · rw [h]; rfl
    · exact ffillFrom_no_nan PVal.inf l rfl w h

/-- C9 witness: a monthly series with an interior gap comes out fully
populated. -/
theorem C9_witness :
    (get_indicator_data_values "Monthly" [PVal.num (1 : ℚ), PVal.nan]).all
      (fun w => !w.isNan) = true :=
  C9_ffill_amended "Monthly" (PVal.num 1) [PVal.nan] (by decide) rfl

/-- C10. Both `display_confidence_analysis` and `display_metrics` are
defined twice in forecasting.py; Python executes `def` statements in
order, so the later definitions (lines 553 and 603) shadow the earlier
asset-aware ones (lines 332 and 437).  The binding actually invoked for
`display_confidence_analysis` is the second definition, which takes only
the forecast, computes the uncapped `100 - width.mean()` (it can report
100%, above the 90% the first definition was believed to enforce, and
even `-200` on wide intervals where the first definition clips to 10),
and applies no stock-specific trend cap (`+400%` is reported where the
first definition would report at most `+100%`); the first definitions
are bound under no other name, i.e. they are unreachable dead code. -/
theorem C10_shadowing :
    pythonBinding forecastingModuleDefs "display_confidence_analysis"
      = some PyFun.displayConfidenceAnalysisV2 ∧
    pythonBinding forecastingModuleDefs "display_metrics"
      = some PyFun.displayMetricsV2 ∧
    List.all forecastingModuleDefs
      (fun p => !(p.2 == PyFun.displayConfidenceAnalysisV1)
        || (p.1 == "display_confidence_analysis")) = true ∧
    List.all forecastingModuleDefs
      (fun p => !(p.2 == PyFun.displayMetricsV1) || (p.1 == "display_metrics")) = true ∧
    (∀ (K : Type) [LinearOrderedField K] (forecast : List (ForecastRow K)),
      display_confidence_analysis_v2_avg forecast
        = 100 - listMean (forecast.map confidenceWidthRow)) ∧
    display_confidence_analysis_v1_avg [wideRow] "stocks" = 10 ∧
    display_confidence_analysis_v2_avg [wideRow] = -200 ∧
    display_confidence_analysis_v1_totalTrend trendRows "stocks" = 100 ∧
    display_confidence_analysis_v2_totalTrend trendRows = 400 := by
  refine ⟨rfl, rfl, by decide, by decide, fun K _ forecast => rfl, ?_, ?_, ?_, ?_⟩
  · have h : pyLower "stocks" = "stocks" := rfl
    simp only [display_confidence_analysis_v1_avg, listMean, confidenceWidthRow, wideRow,
      List.map_cons, List.map_nil, h, if_pos, List.sum_cons, List.sum_nil, List.length_cons,
      List.length_nil]
    norm_num [min_def]
  · norm_num [display_confidence_analysis_v2_avg, listMean, confidenceWidthRow, wideRow]
  · have h : pyLower "stocks" = "stocks" := rfl
    simp only [display_confidence_analysis_v1_totalTrend, lastYhat, firstYhat, trendRows,
      List.map_cons, List.map_nil, h, if_pos]
    norm_num [min_def]
  · norm_num [display_confidence_analysis_v2_totalTrend, lastYhat, firstYhat, trendRows]


/-- C8. For every input — including empty frames, frames that fail
preparation, fit failures (`Except.error` from the model oracle), and
length mismatches in the actual-value assignment — `prophet_forecast`
returns either `(none, some message)` (failure) or `(some forecast, none)`
(success); being a total function of its inputs, it never propagates an
exception (forecasting.py wraps the entire body in
`try ... except Exception` at lines 132 and 214-216). -/
theorem C8_total_error_handling (K : Type) [LinearOrderedField K]
    (data : Frame K) (periods : Nat)
    (economic_data : Option (List (Int × PVal K))) (indicator : Option String)
    (asset_type : String) (lg ex : K → K)
    (fitModel : List (Int × PVal K) → Nat → Except String (List (RawRow K))) :
    ((prophet_forecast data periods economic_data indicator asset_type lg ex fitModel).1
        = none ∧
      (prophet_forecast data periods economic_data indicator asset_type lg ex
        fitModel).2.isSome = true) ∨
    ((prophet_forecast data periods economic_data indicator asset_type lg ex
        fitModel).1.isSome = true ∧
      (prophet_forecast data periods economic_data indicator asset_type lg ex fitModel).2
        = none) := by
  unfold prophet_forecast
  repeat' first
    | exact Or.inl ⟨rfl, rfl⟩
    | exact Or.inr ⟨rfl, rfl⟩
    | split
    | dsimp only


/-- Rows of a successful actual-value assignment take their price fields
from a row of the input. -/
theorem assignActuals_mem {K : Type} (post : List (RawRow K)) (histDs : List Int)
    (vals : List (PVal K)) (fc : List (ForecastRow K))
    (h : assignActuals post histDs vals = .ok fc) :
    ∀ fr ∈ fc, ∃ t ∈ post, fr.yhat = t.yhat ∧ fr.yhatLower = t.yhatLower ∧
      fr.yhatUpper = t.yhatUpper := by
  induction post generalizing vals fc with
  | nil =>
    cases vals with
    | nil =>
      cases h
      intro fr hfr
      cases hfr
    | cons v tl => cases h
  | cons r rs ih =>
    unfold assignActuals at h
    by_cases hmem : r.ds ∈ histDs
    · rw [if_pos hmem] at h
      cases vals with
      | nil => cases h
      | cons v tl =>
        dsimp only at h
        cases hrec : assignActuals rs histDs tl with
        | error e => rw [hrec] at h; cases h
        | ok fc2 =>
          rw [hrec] at h
          simp only [Except.map, Except.ok.injEq] at h
          subst h
          intro fr hfr
          rcases List.mem_cons.mp hfr with hfr | hfr
          · subst hfr
            exact ⟨r, List.mem_cons_self r rs, rfl, rfl, rfl⟩
          · obtain ⟨t, ht, hts⟩ := ih tl fc2 hrec fr hfr
            exact ⟨t, List.mem_cons_of_mem r ht, hts⟩
    · rw [if_neg hmem] at h
      cases hrec : assignActuals rs histDs vals with
      | error e => rw [hrec] at h; cases h
      | ok fc2 =>
        rw [hrec] at h
        simp only [Except.map, Except.ok.injEq] at h
        subst h
        intro fr hfr
        rcases List.mem_cons.mp hfr with hfr | hfr
        · subst hfr
          exact ⟨r, List.mem_cons_self r rs, rfl, rfl, rfl⟩
        · obtain ⟨t, ht, hts⟩ := ih vals fc2 hrec fr hfr
          exact ⟨t, List.mem_cons_of_mem r ht, hts⟩

/-- When the forecast rows consist of a block whose timestamps are the
selected ones followed by a block of unselected timestamps, the
positional assignment succeeds and annotates exactly the first block. -/
theorem assignActuals_append {K : Type} (post : List (RawRow K)) (histDs : List Int)
    (pre fut : List Int) (vals : List (PVal K))
    (hds : post.map RawRow.ds = pre ++ fut)
    (hpre : ∀ d ∈ pre, d ∈ histDs)
    (hfut : ∀ d ∈ fut, d ∉ histDs)
    (hlen : vals.length = pre.length) :
    ∃ fc, assignActuals post histDs vals = .ok fc ∧
      fc.map ForecastRow.actual = vals.map some ++ fut.map (fun _ => none) ∧
      fc.map ForecastRow.ds = post.map RawRow.ds := by
  induction post generalizing pre fut vals with
  | nil =>
    rw [List.map_nil] at hds
    obtain ⟨hpre0, hfut0⟩ := List.append_eq_nil.mp hds.symm
    subst hpre0; subst hfut0
    have hv : vals = [] := List.length_eq_zero.mp (by simpa using hlen)
    subst hv
    exact ⟨[], rfl, rfl, rfl⟩
  | cons r rs ih =>
    rw [List.map_cons] at hds
    cases pre with
    | nil =>
      have hfuteq : fut = r.ds :: rs.map RawRow.ds := by simpa using hds.symm
      have hmem : r.ds ∉ histDs := hfut r.ds (by rw [hfuteq]; exact List.mem_cons_self _ _)
      have hv : vals = [] := List.length_eq_zero.mp (by simpa using hlen)
      subst hv
      obtain ⟨fc2, hfc2, hact, hdsfc⟩ := ih [] (rs.map RawRow.ds) []
        (by simp) (by intro d hd; cases hd)
        (by intro d hd; exact hfut d (by rw [hfuteq]; exact List.mem_cons_of_mem _ hd)) rfl
      refine ⟨⟨r.ds, r.yhat, r.yhatLower, r.yhatUpper, none⟩ :: fc2, ?_, ?_, ?_⟩
      · unfold assignActuals
        rw [if_neg hmem, hfc2]
        rfl
      · rw [List.map_cons, hact, hfuteq]
        simp
      · rw [List.map_cons, hdsfc]
        rfl
    | cons d pre2 =>
      have hd : r.ds = d := (List.cons.injEq _ _ _ _).mp hds |>.1
      have hmem : r.ds ∈ histDs := by rw [hd]; exact hpre d (List.mem_cons_self _ _)
      cases vals with
      | nil => simp at hlen
      | cons v tl =>
        obtain ⟨fc2, hfc2, hact, hdsfc⟩ := ih pre2 fut tl
          ((List.cons.injEq _ _ _ _).mp hds |>.2)
          (fun x hx => hpre x (List.mem_cons_of_mem d hx)) hfut
          (by simpa using hlen)
        refine ⟨⟨r.ds, r.yhat, r.yhatLower, r.yhatUpper, some v⟩ :: fc2, ?_, ?_, ?_⟩
        · unfold assignActuals
          rw [if_pos hmem]
          dsimp only
          rw [hfc2]
          rfl
        · rw [List.map_cons, hact]
          rfl
        · rw [List.map_cons, hdsfc]
          rfl

/-- The log transform of the history keeps the timestamps. -/
theorem logTransform_map_fst {K : Type} (lg : K → K) (rows : List (Int × PVal K)) :
    (rows.map (fun p => (p.1, pvalMap lg p.2))).map Prod.fst = rows.map Prod.fst := by
  simp [List.map_map, Function.comp]

/-- Stock post-processing keeps the timestamps. -/
theorem stockPostProcess_map_ds {K : Type} [LinearOrderedField K] (ex : K → K)
    (df : List (Int × PVal K)) (raw : List (RawRow K)) :
    (stockPostProcess ex df raw).map RawRow.ds = raw.map RawRow.ds := by
  simp [stockPostProcess, List.map_map, Function.comp]

/-- Every row of the stock post-processed forecast arises from a raw row
by exponentiation followed by the clip of forecasting.py lines 194-202. -/
theorem stockPostProcess_mem {K : Type} [LinearOrderedField K] (ex : K → K)
    (df : List (Int × PVal K)) (raw : List (RawRow K)) :
    ∀ s ∈ stockPostProcess ex df raw, ∃ t ∈ raw,
      s.yhat = max (min (ex t.yhat) (ex (pvalNum (lastY df) 0) * 2))
          (ex (pvalNum (lastY df) 0) * (1 / 2)) ∧
      s.yhatLower = max (ex t.yhatLower) (ex (pvalNum (lastY df) 0) * (1 / 2) * (8 / 10)) ∧
      s.yhatUpper = min (ex t.yhatUpper) (ex (pvalNum (lastY df) 0) * 2 * (12 / 10)) := by
  intro s hs
  unfold stockPostProcess at hs
  rw [List.map_map] at hs
  obtain ⟨t, ht, hts⟩ := List.mem_map.mp hs
  exact ⟨t, ht, by subst hts; rfl, by subst hts; rfl, by subst hts; rfl⟩

/-- Arithmetic of the stock clamp: with a positive current price, the
clipped point estimate lies in `[c/2, 2c]`, the clipped upper bound is at
most `2.4c` and the clipped lower bound at least `0.4c`. -/
theorem clamp_bounds {K : Type} [LinearOrderedField K] {c e l u : K} (hc : 0 < c) :
    c * (1 / 2) ≤ max (min e (c * 2)) (c * (1 / 2)) ∧
    max (min e (c * 2)) (c * (1 / 2)) ≤ c * 2 ∧
    min u (c * 2 * (12 / 10)) ≤ c * 2 * (12 / 10) ∧
    c * (1 / 2) * (8 / 10) ≤ max l (c * (1 / 2) * (8 / 10)) :=
  ⟨le_max_right _ _,
    max_le (le_trans (min_le_right _ _) (le_refl _)) (by linarith),
    min_le_right _ _, le_max_right _ _⟩

/-- Arithmetic of the stock clamp, interval-order version: if the
exponentiated raw values are ordered and the raw interval reaches the
clamp band (`eu ≥ c/2` and `el ≤ 2c`), the clipped row is still ordered. -/
theorem clamp_order {K : Type} [LinearOrderedField K] {c el ey eu : K} (hc : 0 < c)
    (h1 : el ≤ ey) (h2 : ey ≤ eu) (h3 : c * (1 / 2) ≤ eu) (h4 : el ≤ c * 2) :
    max el (c * (1 / 2) * (8 / 10)) ≤ max (min ey (c * 2)) (c * (1 / 2)) ∧
    max (min ey (c * 2)) (c * (1 / 2)) ≤ min eu (c * 2 * (12 / 10)) := by
  constructor
  · apply max_le
    · exact le_max_of_le_left (le_min h1 h4)
    · exact le_trans (by linarith) (le_max_right (min ey (c * 2)) (c * (1 / 2)))
  · apply max_le
    · exact le_min (le_trans (min_le_left _ _) h2) (le_trans (min_le_right _ _) (by linarith))
    · exact le_min h3 (by linarith)

/-- The last `y` value of the log-transformed history is the log of the
last observed value. -/
theorem lastY_logTransform {K : Type} (lg : K → K) (rows : List (Int × PVal K)) :
    lastY (rows.map (fun p => (p.1, pvalMap lg p.2))) = pvalMap lg (lastY rows) := by
  unfold lastY
  rw [List.map_map]
  have : (Prod.snd ∘ fun p : Int × PVal K => (p.1, pvalMap lg p.2))
      = pvalMap lg ∘ Prod.snd := rfl
  rw [this, ← List.map_map, List.getLastD_eq_getLast?, List.getLastD_eq_getLast?,
    List.getLast?_map]
  cases (rows.map Prod.snd).getLast? <;> rfl


/-- A successful stock forecast factors through the model oracle, the
stock post-processing, and the actual-value assignment. -/
theorem prophet_forecast_some_stock {K : Type} [LinearOrderedField K]
    {data : Frame K} {periods : Nat} {econ : Option (List (Int × PVal K))}
    {ind : Option String} {asset_type : String} {lg ex : K → K}
    {fitModel : List (Int × PVal K) → Nat → Except String (List (RawRow K))}
    {rows : List (Int × PVal K)} {fc : List (ForecastRow K)}
    (hst : pyLower asset_type = "stocks")
    (hprep : prepare_data_for_prophet data = .ok rows)
    (hres : (prophet_forecast data periods econ ind asset_type lg ex fitModel).1
      = some fc) :
    ∃ raw, fitModel (rows.map (fun p => (p.1, pvalMap lg p.2))) periods = .ok raw ∧
      assignActuals (stockPostProcess ex (rows.map (fun p => (p.1, pvalMap lg p.2))) raw)
        ((rows.map (fun p => (p.1, pvalMap lg p.2))).map Prod.fst)
        ((rows.map (fun p => (p.1, pvalMap lg p.2))).map (fun p => pvalMap ex p.2))
      = .ok fc := by
  unfold prophet_forecast at hres
  split at hres
  · simp at hres
  · rw [hprep] at hres
    dsimp only at hres
    cases hE : rows.isEmpty with
    | true => rw [hE] at hres; simp at hres
    | false =>
      rw [hE] at hres
      simp only [hst, if_pos, Bool.false_eq_true, if_false] at hres
      cases hfit : fitModel (rows.map (fun p => (p.1, pvalMap lg p.2))) periods with
      | error e => rw [hfit] at hres; simp at hres
      | ok raw =>
        rw [hfit] at hres
        dsimp only at hres
        cases hassign : assignActuals
            (stockPostProcess ex (rows.map (fun p => (p.1, pvalMap lg p.2))) raw)
            ((rows.map (fun p => (p.1, pvalMap lg p.2))).map Prod.fst)
            ((rows.map (fun p => (p.1, pvalMap lg p.2))).map (fun p => pvalMap ex p.2)) with
        | error e => rw [hassign] at hres; simp at hres
        | ok fc0 =>
          rw [hassign] at hres
          simp only [Option.some.injEq] at hres
          subst hres
          exact ⟨raw, rfl, hassign⟩

/-- A successful non-stock forecast factors through the model oracle and
the actual-value assignment, with no post-processing. -/
theorem prophet_forecast_some_other {K : Type} [LinearOrderedField K]
    {data : Frame K} {periods : Nat} {econ : Option (List (Int × PVal K))}
    {ind : Option String} {asset_type : String} {lg ex : K → K}
    {fitModel : List (Int × PVal K) → Nat → Except String (List (RawRow K))}
    {rows : List (Int × PVal K)} {fc : List (ForecastRow K)}
    (hst : ¬ pyLower asset_type = "stocks")
    (hprep : prepare_data_for_prophet data = .ok rows)
    (hres : (prophet_forecast data periods econ ind asset_type lg ex fitModel).1
      = some fc) :
    ∃ raw, fitModel rows periods = .ok raw ∧
      assignActuals raw (rows.map Prod.fst) (rows.map Prod.snd) = .ok fc := by
  unfold prophet_forecast at hres
  split at hres
  · simp at hres
  · rw [hprep] at hres
    dsimp only at hres
    cases hE : rows.isEmpty with
    | true => rw [hE] at hres; simp at hres
    | false =>
      rw [hE] at hres
      simp only [if_neg hst, Bool.false_eq_true, if_false] at hres
      cases hfit : fitModel rows periods with
      | error e => rw [hfit] at hres; simp at hres
      | ok raw =>
        rw [hfit] at hres
        dsimp only at hres
        cases hassign : assignActuals raw (rows.map Prod.fst) (rows.map Prod.snd) with
        | error e => rw [hassign] at hres; simp at hres
        | ok fc0 =>
          rw [hassign] at hres
          simp only [Option.some.injEq] at hres
          subst hres
          exact ⟨raw, rfl, hassign⟩

/-- The current price used by the pipeline equals the last observed price when that
observation is finite and positive. -/
theorem currentPrice_eq_lastObs {rows : List (Int × PVal ℝ)} {y0 : ℝ}
    (hlast : (rows.map Prod.snd).getLast? = some (.num y0)) (hy0 : 0 < y0) :
    Real.exp (pvalNum (lastY (rows.map (fun p => (p.1, pvalMap Real.log p.2)))) 0)
      = y0 := by
  rw [lastY_logTransform]
  unfold lastY
  rw [List.getLastD_eq_getLast?, hlast]
  simp only [Option.getD_some, pvalMap, pvalNum]
  exact Real.exp_log hy0


/-- C2. For asset type Stock every returned forecast row has its point
estimate within `[0.5, 2] * (last observed price)`, its upper bound at
most `2 * 1.2 = 2.4` times and its lower bound at least `0.5 * 0.8 = 0.4`
times that price (forecasting.py lines 189-202), whatever the model
produced; for Crypto no clamp is applied, and on a doubling price series
a forecast may exceed twice the last observed price (here `8 > 2 * 2`). -/
theorem C2_stock_clamp_bounds :
    (∀ (data : Frame ℝ) (periods : Nat) (econ : Option (List (Int × PVal ℝ)))
      (ind : Option String) (asset_type : String)
      (fitModel : List (Int × PVal ℝ) → Nat → Except String (List (RawRow ℝ)))
      (rows : List (Int × PVal ℝ)) (fc : List (ForecastRow ℝ)) (r : ForecastRow ℝ)
      (y0 : ℝ),
      pyLower asset_type = "stocks" →
      prepare_data_for_prophet data = .ok rows →
      (rows.map Prod.snd).getLast? = some (.num y0) →
      0 < y0 →
      (prophet_forecast data periods econ ind asset_type Real.log Real.exp
          fitModel).1 = some fc →
      r ∈ fc →
      y0 * (1 / 2) ≤ r.yhat ∧ r.yhat ≤ y0 * 2 ∧
        r.yhatUpper ≤ y0 * 2 * (12 / 10) ∧ y0 * (1 / 2) * (8 / 10) ≤ r.yhatLower) ∧
    ((prophet_forecast (cryptoFrame2 ℝ) 1 none none "crypto" Real.log Real.exp
        fitDoubling).1.map (List.map ForecastRow.yhat) = some [1, 2, 8] ∧
      (2 : ℝ) * 2 < 8) := by
  constructor
  · intro data periods econ ind asset_type fitModel rows fc r y0 hst hprep hlast hy0
      hres hr
    obtain ⟨raw, hfit, hassign⟩ := prophet_forecast_some_stock hst hprep hres
    obtain ⟨t, ht, hy, hl, hu⟩ := assignActuals_mem _ _ _ _ hassign r hr
    obtain ⟨s, hs, hsy, hsl, hsu⟩ := stockPostProcess_mem Real.exp _ raw t ht
    have hc := currentPrice_eq_lastObs hlast hy0
    obtain ⟨b1, b2, b3, b4⟩ := clamp_bounds (c := y0) (e := Real.exp s.yhat)
      (l := Real.exp s.yhatLower) (u := Real.exp s.yhatUpper) hy0
    refine ⟨?_, ?_, ?_, ?_⟩
    · rw [hy, hsy, hc]; exact b1
    · rw [hy, hsy, hc]; exact b2
    · rw [hu, hsu, hc]; exact b3
    · rw [hl, hsl, hc]; exact b4
  · exact ⟨rfl, by norm_num⟩

/-- C2 witness: the one-row stock history with price 1 and the
constant-0 (log-space) oracle satisfies every hypothesis, and the
returned row respects all four clamp bounds. -/
theorem C2_witness :
    (1 : ℝ) * (1 / 2) ≤ (clampedRow ℝ Real.log Real.exp).yhat ∧
    (clampedRow ℝ Real.log Real.exp).yhat ≤ 1 * 2 ∧
    (clampedRow ℝ Real.log Real.exp).yhatUpper ≤ 1 * 2 * (12 / 10) ∧
    (1 : ℝ) * (1 / 2) * (8 / 10) ≤ (clampedRow ℝ Real.log Real.exp).yhatLower :=
  C2_stock_clamp_bounds.1 (stockFrame1 ℝ) 0 none none "stocks" (fitConst 0)
    [(0, PVal.num 1)] [clampedRow ℝ Real.log Real.exp]
    (clampedRow ℝ Real.log Real.exp) 1 rfl rfl rfl one_pos rfl
    (List.mem_singleton.mpr rfl)


/-- C1. The claim that every returned row satisfies
`lower_bound ≤ point_estimate ≤ upper_bound` fails for Stock forecasts:
the clamp of forecasting.py lines 194-202 raises `yhat` to at least half
the current price but clips `yhat_upper` only from above, so when the
model predicts far below the current price the clipped point estimate
overtakes the upper bound.  With one observed price 1 and a model
predicting 1/4 everywhere, the returned row has `yhat = 1/2` but
`yhat_upper = 1/4`. -/
theorem C1_counterexample :
    (prophet_forecast (stockFrame1 ℝ) 0 none none "stocks" Real.log Real.exp
        (fitConst (Real.log (1 / 4)))).1.map (List.map ForecastRow.yhat)
      = some [1 / 2] ∧
    (prophet_forecast (stockFrame1 ℝ) 0 none none "stocks" Real.log Real.exp
        (fitConst (Real.log (1 / 4)))).1.map (List.map ForecastRow.yhatUpper)
      = some [1 / 4] ∧
    ¬ ((1 : ℝ) / 2 ≤ 1 / 4) := by
  have key : prophet_forecast (stockFrame1 ℝ) 0 none none "stocks" Real.log Real.exp
      (fitConst (Real.log (1 / 4)))
      = (some [⟨0,
          max (min (Real.exp (Real.log (1 / 4))) (Real.exp (Real.log 1) * 2))
            (Real.exp (Real.log 1) * (1 / 2)),
          max (Real.exp (Real.log (1 / 4))) (Real.exp (Real.log 1) * (1 / 2) * (8 / 10)),
          min (Real.exp (Real.log (1 / 4))) (Real.exp (Real.log 1) * 2 * (12 / 10)),
          some (PVal.num (Real.exp (Real.log 1)))⟩], none) := rfl
  have h1 : Real.exp (Real.log 1) = (1 : ℝ) := by rw [Real.log_one, Real.exp_zero]
  have h2 : Real.exp (Real.log (1 / 4 : ℝ)) = 1 / 4 := Real.exp_log (by norm_num)
  refine ⟨?_, ?_, by norm_num⟩
  · rw [key]
    simp only [Option.map_some, List.map_cons, List.map_nil, h1, h2]
    norm_num [min_def, max_def]
  · rw [key]
    simp only [Option.map_some, List.map_cons, List.map_nil, h1, h2]
    norm_num [min_def, max_def]

/-- C1 (amended). Every returned forecast row satisfies
`lower_bound ≤ point_estimate ≤ upper_bound` PROVIDED the raw model
output does, and — for Stock only, where the post-fit clamp intervenes —
provided additionally the raw interval reaches the clamp band: the
exponentiated raw upper bound is at least half the current price and the
exponentiated raw lower bound at most twice it.  For Crypto (no clamp)
the raw ordering alone suffices. -/
theorem C1_bounds_order_amended
    (data : Frame ℝ) (periods : Nat) (econ : Option (List (Int × PVal ℝ)))
    (ind : Option String) (asset_type : String)
    (fitModel : List (Int × PVal ℝ) → Nat → Except String (List (RawRow ℝ)))
    (rows : List (Int × PVal ℝ)) (raw : List (RawRow ℝ))
    (fc : List (ForecastRow ℝ)) (r : ForecastRow ℝ)
    (hprep : prepare_data_for_prophet data = .ok rows)
    (hfit : fitModel
      (if pyLower asset_type = "stocks"
        then rows.map (fun p => (p.1, pvalMap Real.log p.2)) else rows) periods
      = .ok raw)
    (hraw : ∀ s ∈ raw, s.yhatLower ≤ s.yhat ∧ s.yhat ≤ s.yhatUpper)
    (hstock : pyLower asset_type = "stocks" → ∀ s ∈ raw,
      Real.exp (pvalNum (lastY (rows.map (fun p => (p.1, pvalMap Real.log p.2)))) 0)
          * (1 / 2) ≤ Real.exp s.yhatUpper ∧
      Real.exp s.yhatLower ≤
        Real.exp (pvalNum (lastY (rows.map (fun p => (p.1, pvalMap Real.log p.2)))) 0)
          * 2)
    (hres : (prophet_forecast data periods econ ind asset_type Real.log Real.exp
      fitModel).1 = some fc)
    (hr : r ∈ fc) :
    r.yhatLower ≤ r.yhat ∧ r.yhat ≤ r.yhatUpper := by
  by_cases hst : pyLower asset_type = "stocks"
  · rw [if_pos hst] at hfit
    obtain ⟨raw2, hfit2, hassign⟩ := prophet_forecast_some_stock hst hprep hres
    rw [hfit] at hfit2
    have hroweq : raw = raw2 := by injection hfit2
    subst hroweq
    obtain ⟨t, ht, hy, hl, hu⟩ := assignActuals_mem _ _ _ _ hassign r hr
    obtain ⟨s, hs, hsy, hsl, hsu⟩ := stockPostProcess_mem Real.exp _ raw t ht
    have hcpos : 0 < Real.exp
        (pvalNum (lastY (rows.map (fun p => (p.1, pvalMap Real.log p.2)))) 0) :=
      Real.exp_pos _
    have hmono1 : Real.exp s.yhatLower ≤ Real.exp s.yhat :=
      Real.exp_le_exp.mpr (hraw s hs).1
    have hmono2 : Real.exp s.yhat ≤ Real.exp s.yhatUpper :=
      Real.exp_le_exp.mpr (hraw s hs).2
    obtain ⟨o1, o2⟩ := clamp_order hcpos hmono1 hmono2 (hstock hst s hs).1
      (hstock hst s hs).2
    constructor
    · rw [hl, hsl, hy, hsy]
      exact o1
    · rw [hy, hsy, hu, hsu]
      exact o2
  · rw [if_neg hst] at hfit
    obtain ⟨raw2, hfit2, hassign⟩ := prophet_forecast_some_other hst hprep hres
    rw [hfit] at hfit2
    have hroweq : raw = raw2 := by injection hfit2
    subst hroweq
    obtain ⟨t, ht, hy, hl, hu⟩ := assignActuals_mem _ _ _ _ hassign r hr
    obtain ⟨h1, h2⟩ := hraw t ht
    exact ⟨by rw [hl, hy]; exact h1, by rw [hy, hu]; exact h2⟩

/-- C1 witness: a crypto forecast whose raw rows are ordered; the first
returned row keeps `lower ≤ point ≤ upper`. -/
theorem C1_witness :
    (⟨0, 1, 1, 1, some (PVal.num 1)⟩ : ForecastRow ℝ).yhatLower ≤
      (⟨0, 1, 1, 1, some (PVal.num 1)⟩ : ForecastRow ℝ).yhat ∧
    (⟨0, 1, 1, 1, some (PVal.num 1)⟩ : ForecastRow ℝ).yhat ≤
      (⟨0, 1, 1, 1, some (PVal.num 1)⟩ : ForecastRow ℝ).yhatUpper := by
  have hres : (prophet_forecast (cryptoFrame2 ℝ) 1 none none "crypto" Real.log
      Real.exp fitDoubling).1
      = some [⟨0, 1, 1, 1, some (PVal.num 1)⟩, ⟨1, 2, 2, 2, some (PVal.num 2)⟩,
        ⟨2, 8, 8, 8, none⟩] := rfl
  have hprep : prepare_data_for_prophet (cryptoFrame2 ℝ)
      = .ok [(0, PVal.num 1), (1, PVal.num 2)] := rfl
  have hfit : fitDoubling
      (if pyLower "crypto" = "stocks"
        then List.map (fun p => (p.1, pvalMap Real.log p.2))
          [(0, PVal.num (1 : ℝ)), (1, PVal.num 2)]
        else [(0, PVal.num 1), (1, PVal.num 2)]) 1
      = .ok [⟨0, 1, 1, 1⟩, ⟨1, 2, 2, 2⟩, ⟨2, 8, 8, 8⟩] := rfl
  have hraw : ∀ s ∈ ([⟨0, 1, 1, 1⟩, ⟨1, 2, 2, 2⟩, ⟨2, 8, 8, 8⟩] : List (RawRow ℝ)),
      s.yhatLower ≤ s.yhat ∧ s.yhat ≤ s.yhatUpper := by
    intro s hs
    simp only [List.mem_cons, List.not_mem_nil, or_false] at hs
    rcases hs with rfl | rfl | rfl <;> exact ⟨le_refl _, le_refl _⟩
  exact C1_bounds_order_amended (cryptoFrame2 ℝ) 1 none none "crypto" fitDoubling
    [(0, PVal.num 1), (1, PVal.num 2)]
    [⟨0, 1, 1, 1⟩, ⟨1, 2, 2, 2⟩, ⟨2, 8, 8, 8⟩]
    [⟨0, 1, 1, 1, some (PVal.num 1)⟩, ⟨1, 2, 2, 2, some (PVal.num 2)⟩,
      ⟨2, 8, 8, 8, none⟩]
    ⟨0, 1, 1, 1, some (PVal.num 1)⟩
    hprep hfit hraw
    (fun h => absurd h (by decide))
    hres
    (List.mem_cons_self _ _)

/-- C7. Every returned forecast row whose timestamp lies in the input
history carries the observed actual value, in order, and every future row
carries a null actual (forecasting.py lines 204-210).  For stocks the
stored actuals are `exp (log y)` of the prepared values, so positive
observed prices round-trip exactly; NaN and infinity also round-trip
through the numpy `log`/`exp` maps.  Hypotheses: the model output covers
exactly the historical timestamps (in order) followed by fresh future
timestamps, as `make_future_dataframe` guarantees. -/
theorem C7_actual_annotation
    (data : Frame ℝ) (periods : Nat) (econ : Option (List (Int × PVal ℝ)))
    (ind : Option String) (asset_type : String)
    (fitModel : List (Int × PVal ℝ) → Nat → Except String (List (RawRow ℝ)))
    (rows : List (Int × PVal ℝ)) (raw : List (RawRow ℝ)) (fut : List Int)
    (hdata : data.isEmptyFrame = false)
    (hprep : prepare_data_for_prophet data = .ok rows)
    (hne : rows.isEmpty = false)
    (hpos : pyLower asset_type = "stocks" →
      ∀ p ∈ rows, ∀ y : ℝ, p.2 = .num y → 0 < y)
    (hfit : fitModel
      (if pyLower asset_type = "stocks"
        then rows.map (fun p => (p.1, pvalMap Real.log p.2)) else rows) periods
      = .ok raw)
    (hshape : raw.map RawRow.ds = rows.map Prod.fst ++ fut)
    (hfut : ∀ d ∈ fut, d ∉ rows.map Prod.fst) :
    (prophet_forecast data periods econ ind asset_type Real.log Real.exp
        fitModel).2 = none ∧
    (prophet_forecast data periods econ ind asset_type Real.log Real.exp
        fitModel).1.map (List.map ForecastRow.actual)
      = some (rows.map (fun p => some p.2) ++ fut.map (fun _ => none)) ∧
    (prophet_forecast data periods econ ind asset_type Real.log Real.exp
        fitModel).1.map (List.map ForecastRow.ds) = some (raw.map RawRow.ds) := by
  unfold prophet_forecast
  simp only [hdata, Bool.false_eq_true, if_false]
  rw [hprep]
  dsimp only
  simp only [hne, Bool.false_eq_true, if_false]
  by_cases hst : pyLower asset_type = "stocks"
  · rw [if_pos hst] at hfit
    simp only [hst, if_pos, Bool.false_eq_true, if_false]
    rw [hfit]
    dsimp only
    obtain ⟨fc, hfc, hact, hdsfc⟩ := assignActuals_append
      (stockPostProcess Real.exp (rows.map (fun p => (p.1, pvalMap Real.log p.2))) raw)
      ((rows.map (fun p => (p.1, pvalMap Real.log p.2))).map Prod.fst)
      (rows.map Prod.fst) fut
      ((rows.map (fun p => (p.1, pvalMap Real.log p.2))).map (fun p => pvalMap Real.exp p.2))
      (by rw [stockPostProcess_map_ds, hshape])
      (by rw [logTransform_map_fst]; exact fun d hd => hd)
      (by rw [logTransform_map_fst]; exact hfut)
      (by simp)
    rw [hfc]
    dsimp only
    refine ⟨rfl, ?_, ?_⟩
    · rw [Option.map_some']
      congr 1
      rw [hact]
      congr 1
      rw [List.map_map, List.map_map]
      apply List.map_congr_left
      intro p hp
      cases hp2 : p.2 with
      | num y =>
        simp only [Function.comp_apply, pvalMap, hp2, Option.some.injEq]
        rw [Real.exp_log (hpos hst p hp y hp2)]
      | nan => simp [Function.comp, pvalMap, hp2]
      | inf => simp [Function.comp, pvalMap, hp2]
    · rw [Option.map_some']
      congr 1
      rw [hdsfc, stockPostProcess_map_ds]
  · rw [if_neg hst] at hfit
    simp only [if_neg hst]
    rw [hfit]
    dsimp only
    obtain ⟨fc, hfc, hact, hdsfc⟩ := assignActuals_append raw (rows.map Prod.fst)
      (rows.map Prod.fst) fut (rows.map Prod.snd)
      hshape (fun d hd => hd) hfut (by simp)
    rw [hfc]
    dsimp only
    refine ⟨rfl, ?_, ?_⟩
    · rw [Option.map_some']
      congr 1
      rw [hact]
      congr 1
      rw [List.map_map]
      rfl
    · rw [Option.map_some']
      congr 1


/-- C7 witness: a gap-free two-day crypto history with one forecast day;
the historical rows carry the observed values 2 and 3 and the future row
a null actual. -/
theorem C7_witness :
    (prophet_forecast (cryptoFrame3 ℝ) 1 none none "crypto" Real.log Real.exp
        fitFlat).2 = none ∧
    (prophet_forecast (cryptoFrame3 ℝ) 1 none none "crypto" Real.log Real.exp
        fitFlat).1.map (List.map ForecastRow.actual)
      = some [some (PVal.num 2), some (PVal.num 3), none] ∧
    (prophet_forecast (cryptoFrame3 ℝ) 1 none none "crypto" Real.log Real.exp
        fitFlat).1.map (List.map ForecastRow.ds) = some [0, 1, 2] :=
  C7_actual_annotation (cryptoFrame3 ℝ) 1 none none "crypto" fitFlat
    [(0, PVal.num 2), (1, PVal.num 3)]
    [⟨0, 5, 4, 6⟩, ⟨1, 5, 4, 6⟩, ⟨2, 5, 4, 6⟩] [2]
    rfl rfl rfl
    (fun h => absurd h (by decide))
    rfl rfl
    (by decide)


end HummingBird
